import Mathlib

/-!
Verification development for the `jovo-cms-airtable` integration
(`src/jovo-integrations/jovo-cms-airtable/src/AirtableCMS.ts`).

The TypeScript class `AirtableCMS` is shallowly embedded below:

* JavaScript cell values reaching the normalized table are either strings or
  `undefined`; they are modelled as `Option String`, with `none` standing for
  `undefined`.
* A raw Airtable record is modelled by its `fields` object: an insertion-ordered
  association list of field name to cell value (`Object.keys` / `Object.values`
  read that order).
* The `eachPage` interaction of the Airtable client is modelled by its two
  observable inputs: the list of record pages delivered to the page callback,
  in delivery order, and the optional error handed to the completion callback.
  The promise produced by `loadTableData` has three observable outcomes:
  resolved with the accumulated rows, rejected with a `JovoError`, or an
  exception escaping the page callback (in which case the promise settles
  never; that outcome is recorded explicitly).
-/

namespace AirtableCMS

/-- A JavaScript value that can appear as a cell of the normalized table:
a string or `undefined` (modelled as `none`). -/
abbrev Cell := Option String

/-- A normalized row: an ordered list of cells (`any[]` in the source). -/
abbrev Row := List Cell

/-- One raw Airtable record, reduced to its `fields` object: an
insertion-ordered association list of field name to value. -/
structure AirtableRecord where
  fields : List (String × String)
deriving DecidableEq

/-- One page of records as delivered to the `eachPage` page callback. -/
abbrev Page := List AirtableRecord

/-- `Object.keys(record.fields)` as cells, in insertion order. -/
def recordKeys (r : AirtableRecord) : List Cell :=
  r.fields.map (fun kv => some kv.1)

/-- `Object.values(record.fields)` as cells, in insertion order. -/
def recordValues (r : AirtableRecord) : List Cell :=
  r.fields.map (fun kv => some kv.2)

/-- Embeds `shiftLastItemToFirstIndex` (AirtableCMS.ts lines 136-140):
`arr.pop()` removes and returns the last element (`undefined` on an empty
array) and `arr.unshift(lastItem)` puts that value at index 0. -/
def shiftLastItemToFirstIndex (arr : List Cell) : List Cell :=
  arr.getLastD none :: arr.dropLast

/-- The error object of `new JovoError(message, code, module, ...)`
(only the three arguments the source passes). -/
structure JovoError where
  message : String
  code : String
  module : String
deriving DecidableEq

/-- The error the remote source may hand to the completion callback of
`eachPage` (its `message` and `name` are what the source code reads). -/
structure SourceError where
  message : String
  name : String
deriving DecidableEq

/-- Embeds one run of the page callback of `loadTableData`
(AirtableCMS.ts lines 97-121) on one delivered page: it reads
the fields of `records[0]`, pushes the shifted key list, then pushes the
shifted value list of every record.  On an empty page `records[0]` is `undefined`,
`_get` yields `undefined`, and `Object.keys(undefined)` throws a `TypeError`,
modelled as the `Except.error` branch. -/
def processPage : Page → Except String (List Row)
  | [] => Except.error "TypeError: Cannot convert undefined or null to object"
  | r :: rs =>
      Except.ok
        (shiftLastItemToFirstIndex (recordKeys r) ::
          (r :: rs).map (fun q => shiftLastItemToFirstIndex (recordValues q)))

/-- Runs the page callback over every delivered page in delivery order,
accumulating into `arr` exactly as the source mutates its `arr` variable;
stops at the first page on which the callback throws. -/
def processPages : List Page → List Row → Except String (List Row)
  | [], arr => Except.ok arr
  | p :: ps, arr =>
      match processPage p with
      | Except.error e => Except.error e
      | Except.ok rows => processPages ps (arr ++ rows)

/-- Observable outcome of the promise returned by `loadTableData`. -/
inductive LoadOutcome where
  | resolved (rows : List Row)
  | rejected (e : JovoError)
  | exceptionInPageCallback (msg : String)
deriving DecidableEq

/-- Embeds `loadTableData` (AirtableCMS.ts lines 93-134) as a function of the
pages the remote source delivers and the error (if any) it reports on
completion: all delivered pages are processed in order; then the completion
callback rejects with a new JovoError built from err.message, err.name and
the tag jovo-cms-airtable when an error was reported, and otherwise resolves
with the accumulated rows. -/
def loadTableData (pages : List Page) (completionError : Option SourceError) :
    LoadOutcome :=
  match processPages pages [] with
  | Except.error msg => LoadOutcome.exceptionInPageCallback msg
  | Except.ok arr =>
      match completionError with
      | some e => LoadOutcome.rejected ⟨e.message, e.name, "jovo-cms-airtable"⟩
      | none => LoadOutcome.resolved arr

example :
    shiftLastItemToFirstIndex [some "a", some "b", some "c"] =
      [some "c", some "a", some "b"] := by decide

example : shiftLastItemToFirstIndex [] = [none] := by decide

/-- Record `{Name: "Alice", ID: "p1"}` with the primary field `ID` delivered
last, as in spec scenario A. -/
def recAlice : AirtableRecord := ⟨[("Name", "Alice"), ("ID", "p1")]⟩

/-- Record `{Name: "Bob", ID: "p2"}` with the primary field `ID` delivered
last, as in spec scenario A. -/
def recBob : AirtableRecord := ⟨[("Name", "Bob"), ("ID", "p2")]⟩

example :
    loadTableData [[recAlice, recBob]] none =
      LoadOutcome.resolved
        [[some "ID", some "Name"], [some "p1", some "Alice"],
         [some "p2", some "Bob"]] := by decide

/-- ASCII lowercasing of one character, as `String.prototype.toLowerCase`
acts on the ASCII table-type names used here. -/
def lowerChar (c : Char) : Char :=
  if 'A' ≤ c ∧ c ≤ 'Z' then Char.ofNat (c.toNat + 32) else c

/-- `s.toLowerCase()` on the ASCII strings involved in strategy dispatch. -/
def jsToLower (s : String) : String :=
  ⟨s.data.map lowerChar⟩

/-- JavaScript truthiness of `sheet.type` / `config.apiKey` /
`config.baseId`: `undefined` and the empty string are falsy, every other
string is truthy. -/
def jsTruthy : Option String → Bool
  | none => false
  | some s => s != ""

/-- The four table classes the `defaultSheetMap` object literal of `install`
maps type names to. -/
inductive TableClass where
  | DefaultTable
  | ResponsesTable
  | KeyValueTable
  | ObjectArrayTable
deriving DecidableEq

/-- Embeds the `defaultSheetMap` object literal (AirtableCMS.ts lines 42-47)
as own-property lookup: the four listed keys map to their table classes,
every other key is absent. -/
def defaultSheetMap (s : String) : Option TableClass :=
  if s = "default" then some TableClass.DefaultTable
  else if s = "responses" then some TableClass.ResponsesTable
  else if s = "keyvalue" then some TableClass.KeyValueTable
  else if s = "objectarray" then some TableClass.ObjectArrayTable
  else none

/-- A configured sheet (the fields of `AirtableTable` that `install` reads:
its name and its optional declared `type`). -/
structure AirtableTable where
  name : String
  declaredType : Option String
deriving DecidableEq

/-- Embeds the per-sheet dispatch of `install` (AirtableCMS.ts lines 50-59):
`type` starts `undefined`; if `sheet.type` is falsy it becomes the string
Default;
if `sheet.type` is truthy and `defaultSheetMap[sheet.type.toLowerCase()]`
exists it becomes the lowercased name; finally, only when `type` is truthy is
`defaultSheetMap[type.toLowerCase()]` instantiated.  `none` means no strategy
is registered for the sheet. -/
def resolveStrategy (declaredType : Option String) : Option TableClass :=
  let type1 : Option String :=
    if jsTruthy declaredType then none else some "Default"
  let type2 : Option String :=
    match declaredType with
    | some s =>
        if jsTruthy (some s) && (defaultSheetMap (jsToLower s)).isSome then
          some (jsToLower s)
        else type1
    | none => type1
  match type2 with
  | some t => defaultSheetMap (jsToLower t)
  | none => none

/-- The configuration fields of `AirtableCMS` that `install` reads. -/
structure Config where
  apiKey : Option String
  baseId : Option String
  sheets : List AirtableTable
deriving DecidableEq

/-- Outcome of a call to `install`: it either returns normally or throws a
`JovoError`. -/
inductive InstallResult where
  | ok
  | thrown (e : JovoError)
deriving DecidableEq

/-- Observable trace of one `install` call: which strategy instances were
registered through `this.use`, how the call ended, and whether
`new Airtable(...).base(...)` (the remote client) was ever constructed. -/
structure InstallTrace where
  registered : List (TableClass × AirtableTable)
  result : InstallResult
  clientConstructed : Bool
deriving DecidableEq

/-- Embeds `install` (AirtableCMS.ts lines 37-82) in source order: first the
per-sheet registration loop runs to completion, then the `apiKey` check may
throw a JovoError naming the api key (code ERR_PLUGIN, module
jovo-cms-airtable), then the `baseId` check may throw likewise, and only
afterwards is the Airtable client constructed. -/
def install (cfg : Config) : InstallTrace :=
  let registered :=
    cfg.sheets.filterMap
      (fun sheet => (resolveStrategy sheet.declaredType).map (fun v => (v, sheet)))
  if jsTruthy cfg.apiKey = false then
    { registered := registered
      result := InstallResult.thrown
        ⟨"Can\x27t find api key", "ERR_PLUGIN", "jovo-cms-airtable"⟩
      clientConstructed := false }
  else if jsTruthy cfg.baseId = false then
    { registered := registered
      result := InstallResult.thrown
        ⟨"Can\x27t find baseId", "ERR_PLUGIN", "jovo-cms-airtable"⟩
      clientConstructed := false }
  else
    { registered := registered
      result := InstallResult.ok
      clientConstructed := true }

example : resolveStrategy none = some TableClass.DefaultTable := by decide
example : resolveStrategy (some "") = some TableClass.DefaultTable := by decide
example : resolveStrategy (some "KEYVALUE") = some TableClass.KeyValueTable := by
  decide
example : resolveStrategy (some "bogus") = none := by decide

/-- The rows a `LoadOutcome` resolved with (empty for the other outcomes). -/
def resolvedRows : LoadOutcome → List Row
  | LoadOutcome.resolved rows => rows
  | _ => []

theorem shift_concat (l : List Cell) (a : Cell) :
    shiftLastItemToFirstIndex (l ++ [a]) = a :: l := by
  simp [shiftLastItemToFirstIndex]

theorem shift_length_of_ne_nil (l : List Cell) (h : l ≠ []) :
    (shiftLastItemToFirstIndex l).length = l.length := by
  have hpos : 0 < l.length := List.length_pos.mpr h
  simp only [shiftLastItemToFirstIndex, List.length_cons, List.length_dropLast]
  omega

theorem processPages_acc (pages : List Page) (arr : List Row) :
    processPages pages arr =
      (processPages pages []).map (fun rows => arr ++ rows) := by
  induction pages generalizing arr with
  | nil => simp [processPages, Except.map]
  | cons p ps ih =>
      cases hp : processPage p with
      | error e => simp [processPages, hp, Except.map]
      | ok rows =>
          simp only [processPages, hp]
          rw [ih (arr ++ rows), ih ([] ++ rows)]
          cases processPages ps [] with
          | error e => simp [Except.map]
          | ok rest => simp [Except.map]

theorem mem_of_processPages (pages : List Page) (rows : List Row)
    (h : processPages pages [] = Except.ok rows) {row : Row}
    (hrow : row ∈ rows) :
    ∃ p ∈ pages, ∃ prows, processPage p = Except.ok prows ∧ row ∈ prows := by
  induction pages generalizing rows with
  | nil =>
      simp only [processPages] at h
      cases h
      simp at hrow
  | cons p ps ih =>
      cases hp : processPage p with
      | error e => simp [processPages, hp] at h
      | ok prows =>
          simp only [processPages, hp] at h
          rw [processPages_acc ps ([] ++ prows)] at h
          cases hrest : processPages ps [] with
          | error e => rw [hrest] at h; simp [Except.map] at h
          | ok rest =>
              rw [hrest] at h
              simp only [Except.map, List.nil_append] at h
              cases h
              rcases List.mem_append.mp hrow with hmem | hmem
              · exact ⟨p, List.mem_cons_self p ps, prows, hp, hmem⟩
              · obtain ⟨q, hq, qrows, hqr, hrq⟩ := ih rest hrest hmem
                exact ⟨q, List.mem_cons_of_mem p hq, qrows, hqr, hrq⟩

theorem processPages_ok_of_nonempty (pages : List Page)
    (h : ∀ p ∈ pages, p ≠ []) (arr : List Row) :
    ∃ rows, processPages pages arr = Except.ok rows := by
  induction pages generalizing arr with
  | nil => exact ⟨arr, rfl⟩
  | cons p ps ih =>
      cases p with
      | nil => exact absurd rfl (h [] (List.mem_cons_self [] ps))
      | cons r rs =>
          obtain ⟨rows, hrows⟩ :=
            ih (fun q hq => h q (List.mem_cons_of_mem _ hq)) (arr ++ _)
          exact ⟨rows, by simpa [processPages, processPage] using hrows⟩

theorem length_of_mem_processPage (p : Page) (prows : List Row)
    (hp : processPage p = Except.ok prows) (n : Nat) (hn : 1 ≤ n)
    (hf : ∀ r ∈ p, r.fields.length = n) :
    ∀ row ∈ prows, row.length = n := by
  cases p with
  | nil => simp [processPage] at hp
  | cons r rs =>
      simp only [processPage, Except.ok.injEq] at hp
      subst hp
      intro row hrow
      have hkey : (recordKeys r).length = n := by
        simpa [recordKeys] using hf r (List.mem_cons_self r rs)
      rcases List.mem_cons.mp hrow with hrow | hrow
      · subst hrow
        rw [shift_length_of_ne_nil, hkey]
        intro hnil
        rw [hnil] at hkey
        simp at hkey
        omega
      · obtain ⟨q, hq, hrow⟩ := List.mem_map.mp hrow
        subst hrow
        have hval : (recordValues q).length = n := by
          simpa [recordValues] using hf q hq
        rw [shift_length_of_ne_nil, hval]
        intro hnil
        rw [hnil] at hval
        simp at hval
        omega

/-- Claim C1: the claim (header row only from page 1) is what the spec and
the comments in the code itself intend, but the page callback pushes a key row on
EVERY page: with two delivered pages of one record each, the accumulated
table contains a second header row at position 2, between the two data
rows. -/
theorem c1_header_pushed_on_every_page :
    loadTableData [[recAlice], [recBob]] none =
      LoadOutcome.resolved
        [[some "ID", some "Name"], [some "p1", some "Alice"],
         [some "ID", some "Name"], [some "p2", some "Bob"]] := by decide

/-- Record with fields `{A: "a1", B: "b1"}` (two fields). -/
def recTwoFields : AirtableRecord := ⟨[("A", "a1"), ("B", "b1")]⟩

/-- Record with the single field `{A: "a2"}`, i.e. missing field `B`. -/
def recOneField : AirtableRecord := ⟨[("A", "a2")]⟩

/-- Claim C2 counterexample: fetching one page whose second record is missing
field `B` yields the table `[[B, A], [b1, a1], [a2]]` — the last row has
length 1 while the header has length 2, so not every row has the header
length and no undefined cell is inserted for the missing field. -/
theorem c2_counterexample :
    ¬ (∀ row ∈ resolvedRows (loadTableData [[recTwoFields, recOneField]] none),
        row.length =
          ((resolvedRows (loadTableData [[recTwoFields, recOneField]] none)).headD
            []).length) := by decide

/-- A sheet whose declared type `"bogus"` is not a key of
`defaultSheetMap`. -/
def bogusSheet : AirtableTable := ⟨"products", some "bogus"⟩

/-- Claim C3 counterexample: for a sheet with the unrecognized declared type
`"bogus"`, `resolveStrategy` yields no strategy at all and `install`
registers nothing for the sheet — in particular no Default-strategy
instance. -/
theorem c3_counterexample :
    resolveStrategy (some "bogus") = none ∧
    (install ⟨some "key", some "base", [bogusSheet]⟩).registered = [] := by
  decide

/-- Claim C4: the claim (an empty table resolves to an empty table without
throwing) matches the intent of the spec, but the code derives the header from
`records[0]` without guarding against an empty page: when the source
delivers a single page with zero records — which the Airtable client does
for an empty table, since it always invokes the page callback at least
once — `Object.keys(undefined)` throws inside the page callback and the
promise never resolves.  Only a delivery with zero pages resolves to the
empty table. -/
theorem c4_empty_page_throws :
    loadTableData [[]] none =
      LoadOutcome.exceptionInPageCallback
        "TypeError: Cannot convert undefined or null to object" ∧
    loadTableData [] none = LoadOutcome.resolved [] := by decide

/-- Record with the single field `{K: "v"}`. -/
def recK : AirtableRecord := ⟨[("K", "v")]⟩

/-- Record whose `fields` object is empty (zero fields). -/
def recNoFields : AirtableRecord := ⟨[]⟩

/-- Claim C9: `shiftLastItemToFirstIndex` applied to the empty list returns
`[undefined]` (pop of an empty array yields `undefined`, which unshift then
prepends), so a record with zero fields contributes the data row
`[undefined]`, not an empty row. -/
theorem c9_shift_empty_gives_undefined :
    shiftLastItemToFirstIndex [] = [none] ∧
    loadTableData [[recK, recNoFields]] none =
      LoadOutcome.resolved [[some "K"], [some "v"], [none]] := by decide

/-- Claim C2 (amended): every emitted row has the length of the field list it
was built from, so when every record across all delivered pages has the same
field count `n ≥ 1`, every row of the resolved table (headers included) has
length `n`; but a record missing one of the header fields yields a strictly
shorter row — no undefined cell is inserted at the missing position. -/
theorem c2_uniform_field_count (pages : List Page) (n : Nat) (hn : 1 ≤ n)
    (hf : ∀ p ∈ pages, ∀ r ∈ p, r.fields.length = n) (rows : List Row)
    (h : loadTableData pages none = LoadOutcome.resolved rows) :
    ∀ row ∈ rows, row.length = n := by
  have h' : processPages pages [] = Except.ok rows := by
    cases hpp : processPages pages [] with
    | error msg => simp [loadTableData, hpp] at h
    | ok arr =>
        simp only [loadTableData, hpp] at h
        have harr : arr = rows := by simpa using h
        rw [harr]
  intro row hrow
  obtain ⟨p, hp, prows, hpr, hrp⟩ := mem_of_processPages pages rows h' hrow
  exact length_of_mem_processPage p prows hpr n hn (hf p hp) row hrp

/-- Witness for claim C2 at a concrete uniform two-column table. -/
theorem c2_uniform_field_count_witness :
    (1 ≤ 2) ∧
    (∀ p ∈ ([[recAlice, recBob]] : List Page), ∀ r ∈ p, r.fields.length = 2) ∧
    (loadTableData [[recAlice, recBob]] none =
      LoadOutcome.resolved
        [[some "ID", some "Name"], [some "p1", some "Alice"],
         [some "p2", some "Bob"]]) ∧
    (∀ row ∈ [[some "ID", some "Name"], [some "p1", some "Alice"],
        [some "p2", some "Bob"]], row.length = 2) :=
  ⟨by decide, by decide, by decide,
    c2_uniform_field_count [[recAlice, recBob]] 2 (by decide) (by decide) _
      (by decide)⟩

/-- Claim C3 (amended): when the declared type is absent (or empty, hence
falsy), the sheet resolves to the Default strategy; but when a declared type
is present (truthy) and not a key of the sheet map, NO strategy is resolved
or registered for that sheet — it is silently skipped; in either case
`install` raises no error on account of sheet types. -/
theorem c3_unrecognized_type_skips_sheet (t : Option String) :
    (jsTruthy t = false → resolveStrategy t = some TableClass.DefaultTable) ∧
    (∀ s, t = some s → jsTruthy t = true →
      defaultSheetMap (jsToLower s) = none → resolveStrategy t = none) ∧
    (∀ k b sheets, jsTruthy k = true → jsTruthy b = true →
      (install ⟨k, b, sheets⟩).result = InstallResult.ok) := by
  refine ⟨?_, ?_, ?_⟩
  · intro hfalsy
    cases t with
    | none => decide
    | some s =>
        have hs : s = "" := by
          simpa [jsTruthy] using hfalsy
        subst hs
        decide
  · intro s hs htruthy hmap
    subst hs
    simp only [jsTruthy] at htruthy
    simp [resolveStrategy, jsTruthy, htruthy, hmap]
  · intro k b sheets hk hb
    simp [install, hk, hb]

/-- Witness for claim C3: absent type resolves to Default, the unrecognized
type bogus resolves to nothing, and install raises no error for a
configuration containing the bogus-typed sheet. -/
theorem c3_unrecognized_type_skips_sheet_witness :
    resolveStrategy none = some TableClass.DefaultTable ∧
    resolveStrategy (some "bogus") = none ∧
    (install ⟨some "k", some "b", [bogusSheet]⟩).result = InstallResult.ok :=
  ⟨(c3_unrecognized_type_skips_sheet none).1 (by decide),
   (c3_unrecognized_type_skips_sheet (some "bogus")).2.1 "bogus" rfl (by decide)
     (by decide),
   (c3_unrecognized_type_skips_sheet (some "bogus")).2.2 (some "k") (some "b")
     [bogusSheet] (by decide) (by decide)⟩

/-- Claim C5: when the source reports an error to the completion callback
(and every delivered page was processable), the promise is rejected with a
JovoError carrying the original message and the tag jovo-cms-airtable; the
outcome is the rejection alone, so no partial table reaches the caller and
no retry happens. -/
theorem c5_rejects_with_jovo_error (pages : List Page) (e : SourceError)
    (h : ∀ p ∈ pages, p ≠ []) :
    loadTableData pages (some e) =
      LoadOutcome.rejected ⟨e.message, e.name, "jovo-cms-airtable"⟩ := by
  obtain ⟨rows, hrows⟩ := processPages_ok_of_nonempty pages h []
  simp [loadTableData, hrows]

/-- An error as the Airtable client would report it on completion. -/
def errNotFound : SourceError :=
  ⟨"Could not find table Foo", "AirtableError"⟩

/-- Witness for claim C5 at a concrete page list and source error. -/
theorem c5_rejects_with_jovo_error_witness :
    (∀ p ∈ ([[recAlice]] : List Page), p ≠ []) ∧
    loadTableData [[recAlice]] (some errNotFound) =
      LoadOutcome.rejected
        ⟨"Could not find table Foo", "AirtableError", "jovo-cms-airtable"⟩ :=
  ⟨by decide, c5_rejects_with_jovo_error [[recAlice]] errNotFound (by decide)⟩

/-- Claim C6: when the API key or the base identifier is missing, `install`
throws a JovoError naming the missing credential (tagged jovo-cms-airtable),
and the remote client is never constructed, so no network call can have been
attempted; installation does not proceed. -/
theorem c6_missing_credentials_throw (cfg : Config)
    (h : cfg.apiKey = none ∨ cfg.baseId = none) :
    (∃ e, (install cfg).result = InstallResult.thrown e ∧
      e.module = "jovo-cms-airtable" ∧
      ((e.message = "Can\x27t find api key" ∧ jsTruthy cfg.apiKey = false) ∨
       (e.message = "Can\x27t find baseId" ∧ jsTruthy cfg.baseId = false))) ∧
    (install cfg).clientConstructed = false := by
  cases hk : jsTruthy cfg.apiKey with
  | false =>
      refine ⟨⟨⟨"Can\x27t find api key", "ERR_PLUGIN", "jovo-cms-airtable"⟩,
        ?_, rfl, Or.inl ⟨rfl, rfl⟩⟩, ?_⟩ <;> simp [install, hk]
  | true =>
      have hb : cfg.baseId = none := by
        rcases h with h | h
        · rw [h] at hk
          simp [jsTruthy] at hk
        · exact h
      have hbt : jsTruthy cfg.baseId = false := by rw [hb]; rfl
      refine ⟨⟨⟨"Can\x27t find baseId", "ERR_PLUGIN", "jovo-cms-airtable"⟩,
        ?_, rfl, Or.inr ⟨rfl, hbt⟩⟩, ?_⟩ <;> simp [install, hk, hbt]

/-- A configuration with no API key (but a base id and one sheet). -/
def cfgMissingKey : Config := ⟨none, some "appBase1", [⟨"t1", none⟩]⟩

/-- Witness for claim C6 at a concrete configuration missing the API key. -/
theorem c6_missing_credentials_throw_witness :
    (cfgMissingKey.apiKey = none ∨ cfgMissingKey.baseId = none) ∧
    ((∃ e, (install cfgMissingKey).result = InstallResult.thrown e ∧
        e.module = "jovo-cms-airtable" ∧
        ((e.message = "Can\x27t find api key" ∧
            jsTruthy cfgMissingKey.apiKey = false) ∨
         (e.message = "Can\x27t find baseId" ∧
            jsTruthy cfgMissingKey.baseId = false))) ∧
      (install cfgMissingKey).clientConstructed = false) :=
  ⟨Or.inl rfl, c6_missing_credentials_throw cfgMissingKey (Or.inl rfl)⟩

/-- Claim C7: strategy resolution is case-insensitive over the four known
variant names: any declared type whose lowercasing is a key of the sheet map
selects exactly the variant that map assigns to the lowercased name, and an
absent declared type selects Default. -/
theorem c7_case_insensitive_resolution (s : String)
    (h : jsToLower s ∈ ["default", "responses", "keyvalue", "objectarray"]) :
    resolveStrategy (some s) = defaultSheetMap (jsToLower s) ∧
    (defaultSheetMap (jsToLower s)).isSome = true ∧
    resolveStrategy none = some TableClass.DefaultTable := by
  have hs : s ≠ "" := by
    intro he
    subst he
    simp [jsToLower] at h
  have hst : (s != "") = true := bne_iff_ne.mpr hs
  simp only [List.mem_cons, List.not_mem_nil, or_false] at h
  rcases h with h | h | h | h <;>
    exact ⟨by simp only [resolveStrategy, jsTruthy, hst, h]; decide,
      by rw [h]; decide, by decide⟩

/-- Witness for claim C7 at the concrete declared type KEYVALUE. -/
theorem c7_case_insensitive_resolution_witness :
    jsToLower "KEYVALUE" ∈ ["default", "responses", "keyvalue", "objectarray"] ∧
    (resolveStrategy (some "KEYVALUE") = defaultSheetMap (jsToLower "KEYVALUE") ∧
      (defaultSheetMap (jsToLower "KEYVALUE")).isSome = true ∧
      resolveStrategy none = some TableClass.DefaultTable) :=
  ⟨by decide, c7_case_insensitive_resolution "KEYVALUE" (by decide)⟩

/-- Claim C8: on a non-empty list (written `l ++ [a]`) the transform returns
the last element followed by the remaining elements in order; and on any list
of length at least two whose first and last elements differ from each other
and from the middle elements, applying the transform twice differs from
applying it once — the transform is not idempotent. -/
theorem c8_shift_spec (a f la : Cell) (l mid : List Cell) (hfl : f ≠ la)
    (hfm : f ∉ mid) (hlm : la ∉ mid) :
    shiftLastItemToFirstIndex (l ++ [a]) = a :: l ∧
    shiftLastItemToFirstIndex
        (shiftLastItemToFirstIndex (f :: (mid ++ [la]))) ≠
      shiftLastItemToFirstIndex (f :: (mid ++ [la])) := by
  refine ⟨shift_concat l a, ?_⟩
  have h1 : shiftLastItemToFirstIndex (f :: (mid ++ [la])) = la :: f :: mid := by
    have hsplit : f :: (mid ++ [la]) = (f :: mid) ++ [la] := by simp
    rw [hsplit, shift_concat]
  rw [h1]
  rcases List.eq_nil_or_concat mid with hmid | ⟨L, y, hmid⟩
  · subst hmid
    have h2 : shiftLastItemToFirstIndex (la :: f :: []) = f :: la :: [] := by
      have hsplit : la :: f :: ([] : List Cell) = [la] ++ [f] := rfl
      rw [hsplit, shift_concat]
    rw [h2]
    intro heq
    exact hfl ((List.cons.injEq _ _ _ _).mp heq).1
  · rw [List.concat_eq_append] at hmid
    subst hmid
    have h2 : shiftLastItemToFirstIndex (la :: f :: (L ++ [y])) =
        y :: la :: f :: L := by
      have hsplit : la :: f :: (L ++ [y]) = (la :: f :: L) ++ [y] := by simp
      rw [hsplit, shift_concat]
    rw [h2]
    intro heq
    have hyla : y = la := ((List.cons.injEq _ _ _ _).mp heq).1
    apply hlm
    subst hyla
    simp

/-- Witness for claim C8 at concrete two-element lists. -/
theorem c8_shift_spec_witness :
    shiftLastItemToFirstIndex ([some "y"] ++ [some "x"]) =
      some "x" :: [some "y"] ∧
    shiftLastItemToFirstIndex
        (shiftLastItemToFirstIndex (some "a" :: ([] ++ [some "b"]))) ≠
      shiftLastItemToFirstIndex (some "a" :: ([] ++ [some "b"])) :=
  c8_shift_spec (some "x") (some "a") (some "b") [some "y"] [] (by decide)
    (by decide) (by decide)

/-- Claim C10: when `install` throws for a missing API key or base id, the
per-sheet registration loop has already completed: every sheet whose declared
type resolves to a strategy has its instance in the registered list of the
same (throwing) call — install is not atomic on configuration error. -/
theorem c10_registration_precedes_throw (cfg : Config)
    (h : cfg.apiKey = none ∨ cfg.baseId = none) :
    (∃ e, (install cfg).result = InstallResult.thrown e) ∧
    ∀ sheet ∈ cfg.sheets, ∀ v, resolveStrategy sheet.declaredType = some v →
      (v, sheet) ∈ (install cfg).registered := by
  have hreg : (install cfg).registered =
      cfg.sheets.filterMap
        (fun sheet =>
          (resolveStrategy sheet.declaredType).map (fun v => (v, sheet))) := by
    unfold install
    split
    · rfl
    · split <;> rfl
  constructor
  · cases hk : jsTruthy cfg.apiKey with
    | false =>
        exact ⟨⟨"Can\x27t find api key", "ERR_PLUGIN", "jovo-cms-airtable"⟩,
          by simp [install, hk]⟩
    | true =>
        have hb : cfg.baseId = none := by
          rcases h with h | h
          · rw [h] at hk
            simp [jsTruthy] at hk
          · exact h
        have hbt : jsTruthy cfg.baseId = false := by rw [hb]; rfl
        exact ⟨⟨"Can\x27t find baseId", "ERR_PLUGIN", "jovo-cms-airtable"⟩,
          by simp [install, hk, hbt]⟩
  · intro sheet hsheet v hv
    rw [hreg]
    exact List.mem_filterMap.mpr ⟨sheet, hsheet, by rw [hv]; rfl⟩

/-- A configuration missing both credentials but with one default sheet. -/
def cfgMissingBoth : Config := ⟨none, none, [⟨"t1", none⟩]⟩

/-- Witness for claim C10: the throwing install call has already registered
the Default strategy instance for the configured sheet. -/
theorem c10_registration_precedes_throw_witness :
    (cfgMissingBoth.apiKey = none ∨ cfgMissingBoth.baseId = none) ∧
    ((∃ e, (install cfgMissingBoth).result = InstallResult.thrown e) ∧
      ∀ sheet ∈ cfgMissingBoth.sheets, ∀ v,
        resolveStrategy sheet.declaredType = some v →
          (v, sheet) ∈ (install cfgMissingBoth).registered) :=
  ⟨Or.inl rfl, c10_registration_precedes_throw cfgMissingBoth (Or.inl rfl)⟩

end AirtableCMS
